import Mathlib

/-!
Verification development for the RELP ingestion subsystem of
stephane-martin/relp2kafka (services/network/relp.go).

The Go source is shallowly embedded: pure helpers become Lean functions,
machine integers become Int/Nat with explicit reductions mod 2^64 at the
points where Go wraps, and the stateful pieces (ack forwarder, connection
handler loop, response writer, parser worker, supervisor) become explicit
state-passing functions emitting event traces.
-/

namespace Relp

/-! ### Transaction number codec (relp.go, txnr2bytes / bytes2txnr)

Go semantics embedded: `uint64(txnr)` is reduction of the 64-bit int mod
2^64; `<< 1` wraps mod 2^64; `^ux` is `2^64 - 1 - ux`; the 8 bytes are the
little-endian limbs; `int64(ux >> 1)` is always the plain value `ux / 2`
because `ux / 2 < 2^63`; the final `^x` on int64 is `-(x + 1)`. -/

def putUint64LE (ux : Nat) : List Nat :=
  [ux % 256, ux / 256 % 256, ux / 256 ^ 2 % 256, ux / 256 ^ 3 % 256,
   ux / 256 ^ 4 % 256, ux / 256 ^ 5 % 256, ux / 256 ^ 6 % 256, ux / 256 ^ 7 % 256]

def getUint64LE : List Nat → Nat
  | b0 :: b1 :: b2 :: b3 :: b4 :: b5 :: b6 :: b7 :: _ =>
      b0 + b1 * 256 + b2 * 256 ^ 2 + b3 * 256 ^ 3 +
      b4 * 256 ^ 4 + b5 * 256 ^ 5 + b6 * 256 ^ 6 + b7 * 256 ^ 7
  | _ => 0

def txnr2bytes (txnr : Int) : List Nat :=
  let ux0 : Nat := ((txnr % (2 ^ 64 : Nat)).toNat * 2) % 2 ^ 64
  putUint64LE (if txnr < 0 then 2 ^ 64 - 1 - ux0 else ux0)

def bytes2txnr (b : List Nat) : Int :=
  let ux : Nat := getUint64LE b
  if ux % 2 = 1 then -((ux / 2 : Nat) + 1) else ((ux / 2 : Nat) : Int)

/-! ### Ack forwarder (relp.go, ackForwarder)

The Go `ackForwarder` keeps three `sync.Map`s from connection id to
`*queue.IntQueue` plus a counter `next`.  Maps become association lists
keyed by Nat (uintptr); each queue becomes a list of Ints plus a
`disposed` flag.  `queue.IntQueue` itself lives outside src/. -/

/-- Modelled from the spec: `utils/queue.IntQueue` is not under src/.
Per the spec it is a disposable FIFO of integers: `Put` appends (and fails
once disposed), `Get` pops the head and errors when empty, `Peek` reads
the head without popping, `Dispose` marks the queue disposed. -/
structure IntQueue where
  items : List Int
  disposed : Bool
deriving DecidableEq, Repr

/-- Modelled from the spec: Put appends unless the queue is disposed. -/
def IntQueue.put (q : IntQueue) (txnr : Int) : IntQueue :=
  if q.disposed then q else { q with items := q.items ++ [txnr] }

/-- Modelled from the spec: Get pops the head, errors (`none`) when empty. -/
def IntQueue.get (q : IntQueue) : Option Int × IntQueue :=
  match q.items with
  | [] => (none, q)
  | t :: rest => (some t, { q with items := rest })

/-- Modelled from the spec: non-blocking Peek of the head. -/
def IntQueue.peek (q : IntQueue) : Option Int :=
  q.items.head?

/-- Modelled from the spec: Dispose marks the queue disposed. -/
def IntQueue.dispose (q : IntQueue) : IntQueue :=
  { q with disposed := true }

/-- Modelled from the spec: `queue.WaitOne(q1, q2)` unblocks when either
queue has an element (true) and returns false when the queues are disposed
and drained. -/
def waitOne (q1 q2 : IntQueue) : Bool :=
  decide (q1.items ≠ [] ∨ q2.items ≠ [])

def mapLoad (m : List (Nat × IntQueue)) (k : Nat) : Option IntQueue :=
  List.lookup k m

def mapStore (m : List (Nat × IntQueue)) (k : Nat) (v : IntQueue) :
    List (Nat × IntQueue) :=
  (k, v) :: m.filter (fun p => p.1 ≠ k)

def mapDelete (m : List (Nat × IntQueue)) (k : Nat) : List (Nat × IntQueue) :=
  m.filter (fun p => p.1 ≠ k)

structure AckForwarder where
  succ : List (Nat × IntQueue)
  fail : List (Nat × IntQueue)
  comm : List (Nat × IntQueue)
  next : Nat
deriving DecidableEq, Repr

def emptyForwarder : AckForwarder := ⟨[], [], [], 0⟩

namespace AckForwarder

/-- relp.go `ackForwarder.Received`: Put on the comm queue when the conn is known. -/
def Received (f : AckForwarder) (connID : Nat) (txnr : Int) : AckForwarder :=
  match mapLoad f.comm connID with
  | some q => { f with comm := mapStore f.comm connID (q.put txnr) }
  | none => f

/-- relp.go `ackForwarder.Commit`: Get on the comm queue, result discarded. -/
def Commit (f : AckForwarder) (connID : Nat) : AckForwarder :=
  match mapLoad f.comm connID with
  | some q => { f with comm := mapStore f.comm connID (q.get).2 }
  | none => f

/-- relp.go `ackForwarder.NextToCommit`: Peek on the comm queue, -1 on error. -/
def NextToCommit (f : AckForwarder) (connID : Nat) : Int :=
  match mapLoad f.comm connID with
  | some q =>
    match q.peek with
    | some next => next
    | none => -1
  | none => -1

/-- relp.go `ackForwarder.ForwardSucc`. -/
def ForwardSucc (f : AckForwarder) (connID : Nat) (txnr : Int) : AckForwarder :=
  match mapLoad f.succ connID with
  | some q => { f with succ := mapStore f.succ connID (q.put txnr) }
  | none => f

/-- relp.go `ackForwarder.GetSucc`: pop from the success queue, -1 on error. -/
def GetSucc (f : AckForwarder) (connID : Nat) : Int × AckForwarder :=
  match mapLoad f.succ connID with
  | some q =>
    match q.get with
    | (some txnr, q1) => (txnr, { f with succ := mapStore f.succ connID q1 })
    | (none, _) => (-1, f)
  | none => (-1, f)

/-- relp.go `ackForwarder.ForwardFail`. -/
def ForwardFail (f : AckForwarder) (connID : Nat) (txnr : Int) : AckForwarder :=
  match mapLoad f.fail connID with
  | some q => { f with fail := mapStore f.fail connID (q.put txnr) }
  | none => f

/-- relp.go `ackForwarder.GetFail`: pop from the failure queue, -1 on error. -/
def GetFail (f : AckForwarder) (connID : Nat) : Int × AckForwarder :=
  match mapLoad f.fail connID with
  | some q =>
    match q.get with
    | (some txnr, q1) => (txnr, { f with fail := mapStore f.fail connID q1 })
    | (none, _) => (-1, f)
  | none => (-1, f)

/-- relp.go `ackForwarder.AddConn`: mints `next+1` and stores three fresh queues. -/
def AddConn (f : AckForwarder) : Nat × AckForwarder :=
  let connID := f.next + 1
  (connID,
   { succ := mapStore f.succ connID ⟨[], false⟩
     fail := mapStore f.fail connID ⟨[], false⟩
     comm := mapStore f.comm connID ⟨[], false⟩
     next := connID })

/-- Result of `RemoveConn`: the new forwarder plus a record of which
Dispose calls were made (relp.go disposes the loaded succ and fail queues;
the comm entry is only deleted, with no Dispose call). -/
structure RemoveResult where
  fwd : AckForwarder
  disposedSucc : Bool
  disposedFail : Bool
  disposedComm : Bool
deriving DecidableEq, Repr

/-- relp.go `ackForwarder.RemoveConn`. -/
def RemoveConn (f : AckForwarder) (connID : Nat) : RemoveResult :=
  let (succ1, ds) :=
    match mapLoad f.succ connID with
    | some _ => (mapDelete f.succ connID, true)
    | none => (f.succ, false)
  let (fail1, df) :=
    match mapLoad f.fail connID with
    | some _ => (mapDelete f.fail connID, true)
    | none => (f.fail, false)
  ⟨{ f with succ := succ1, fail := fail1, comm := mapDelete f.comm connID },
   ds, df, false⟩

/-- relp.go `ackForwarder.Wait`: false as soon as either outcome map misses
the connection, otherwise WaitOne on the two outcome queues. -/
def Wait (f : AckForwarder) (connID : Nat) : Bool :=
  match mapLoad f.succ connID with
  | none => false
  | some qsucc =>
    match mapLoad f.fail connID with
    | none => false
    | some qfail => waitOne qsucc qfail

end AckForwarder

/-! ### Connection handler (relp.go, RelpHandler.HandleConnection)

The scanner (utils.RelpSplit, outside src/) hands the handler one token
per frame: the frame bytes `TXNR SP COMMAND SP DATALEN (SP DATA)?` without
the trailing LF; DATA spans exactly DATALEN bytes and may itself contain
spaces, CRs and LFs.  The handler then runs
`bytes.SplitN(token, " ", 4)`, `strconv.Atoi` (errors ignored, yielding 0)
and `bytes.Trim(data, " \r\n")`, embedded below over byte lists.
Tokens are indexed with a default of `[]` where Go indexes `splits`
directly (the splitter always produces the three header fields). -/

def splitOnce : List Nat → List Nat × Option (List Nat)
  | [] => ([], none)
  | b :: rest =>
    if b = 32 then ([], some rest)
    else
      let r := splitOnce rest
      (b :: r.1, r.2)

/-- `bytes.SplitN(bs, " ", n)`: at most `n` fields, the last keeps the
unsplit remainder (so DATA keeps its internal spaces). -/
def splitN (bs : List Nat) : Nat → List (List Nat)
  | 0 => []
  | 1 => [bs]
  | n + 2 =>
    match splitOnce bs with
    | (_, none) => [bs]
    | (pre, some rest) => pre :: splitN rest (n + 1)

def isDigit (b : Nat) : Bool := decide (48 ≤ b ∧ b ≤ 57)

def digitsToNat (bs : List Nat) : Nat :=
  bs.foldl (fun a b => a * 10 + (b - 48)) 0

/-- `strconv.Atoi` with the error discarded (the handler uses `txnr, _ :=`):
invalid input yields 0; an optional leading sign is accepted. -/
def goAtoi (bs : List Nat) : Int :=
  match bs with
  | [] => 0
  | 43 :: rest => if rest ≠ [] ∧ rest.all isDigit then (digitsToNat rest : Int) else 0
  | 45 :: rest => if rest ≠ [] ∧ rest.all isDigit then -(digitsToNat rest : Int) else 0
  | _ => if bs.all isDigit then (digitsToNat bs : Int) else 0

def isCutset (b : Nat) : Bool := decide (b = 32 ∨ b = 13 ∨ b = 10)

/-- `bytes.Trim(bs, " \r\n")`: strips leading and trailing spaces, CRs, LFs. -/
def trimBytes (bs : List Nat) : List Nat :=
  (((bs.dropWhile isCutset).reverse.dropWhile isCutset)).reverse

def openBytes : List Nat := [111, 112, 101, 110]
def closeBytes : List Nat := [99, 108, 111, 115, 101]
def syslogBytes : List Nat := [115, 121, 115, 108, 111, 103]

/-- Observable actions of one HandleConnection loop iteration: replies
written to the socket, ack-forwarder calls, raw-queue puts, and
`skw_relp_protocol_errors_total` increments.  `openReply` mirrors
`fmt.Fprintf(conn, "%d rsp %d 200 OK\x5Cn%s\x5Cn", txnr, len(data)+7, data)`
field by field. -/
inductive HEvent where
  | openReply (txnr : Int) (lenField : Nat) (echoed : List Nat)
  | closeReply (txnr : Int)
  | received (txnr : Int)
  | forwardSucc (txnr : Int)
  | enqueueRaw (txnr : Int) (payload : List Nat)
  | protocolError
deriving DecidableEq, Repr

structure HState where
  previous : Int
  relpIsOpen : Bool
deriving DecidableEq, Repr

def initHState : HState := ⟨-1, false⟩

/-- One iteration of the HandleConnection scan loop on one scanner token.
Returns the new state, the events of this iteration, and whether the loop
continues (false models `return` / connection termination). -/
def processFrame (st : HState) (token : List Nat) : HState × List HEvent × Bool :=
  let splits := splitN token 4
  let txnr := goAtoi (splits.getD 0 [])
  if txnr ≤ st.previous then (st, [.protocolError], false)
  else
    let st1 : HState := { st with previous := txnr }
    let command := splits.getD 1 []
    let datalen := goAtoi (splits.getD 2 [])
    if datalen ≠ 0 ∧ splits.length ≠ 4 then (st1, [.protocolError], false)
    else
      let data := if datalen ≠ 0 then trimBytes (splits.getD 3 []) else []
      if command = openBytes then
        if st1.relpIsOpen then (st1, [.protocolError], false)
        else ({ st1 with relpIsOpen := true },
              [.openReply txnr (data.length + 7) data], true)
      else if command = closeBytes then
        if st1.relpIsOpen then (st1, [.closeReply txnr], false)
        else (st1, [.protocolError], false)
      else if command = syslogBytes then
        if st1.relpIsOpen then
          if data.length = 0 then (st1, [.received txnr, .forwardSucc txnr], true)
          else (st1, [.received txnr, .enqueueRaw txnr data], true)
        else (st1, [.protocolError], false)
      else (st1, [.protocolError], false)

/-- The scan loop over a list of scanner tokens, stopping at termination. -/
def HandleConnection : HState → List (List Nat) → HState × List HEvent
  | st, [] => (st, [])
  | st, t :: ts =>
    match processFrame st t with
    | (st1, evs, true) =>
      let r := HandleConnection st1 ts
      (r.1, evs ++ r.2)
    | (st1, evs, false) => (st1, evs)

/-! ### Response writer (relp.go, RelpServiceImpl.handleResponses)

Per connection the writer holds two maps `successes` and `failures`
(embedded as lists of pending txnrs), the received queue contents `comm`,
and the wire output `out` (txnr paired with true for `200 OK`, false for
`500 KO`).  Each outer iteration ingests at most one success and one
failure verdict (`GetSucc` / `GetFail`, `none` models -1) and then runs
the Cooking loop; writes are assumed to succeed, modelling a connection
that is closed cleanly. -/

structure RespState where
  comm : List Int
  successes : List Int
  failures : List Int
  out : List (Int × Bool)
deriving DecidableEq, Repr

/-- The Cooking loop: repeatedly peek the head of the received queue
(`NextToCommit`); on a success verdict write `200 OK`, on a failure write
`500 KO`, then `Commit`; stop when the head has no verdict yet or the
queue is empty. -/
def cook : List Int → List Int → List Int → List (Int × Bool) → RespState
  | [], ss, fs, out => ⟨[], ss, fs, out⟩
  | next :: rest, ss, fs, out =>
    if next ∈ ss then cook rest (ss.erase next) fs (out ++ [(next, true)])
    else if next ∈ fs then cook rest ss (fs.erase next) (out ++ [(next, false)])
    else ⟨next :: rest, ss, fs, out⟩

/-- One outer iteration of handleResponses after `Wait` returns. -/
def respStep (st : RespState) (s f : Option Int) : RespState :=
  cook st.comm (st.successes ++ s.toList) (st.failures ++ f.toList) st.out

/-- The handleResponses loop over the sequence of verdict arrivals, with
the received txnrs `rs` registered in order. -/
def handleResponses (rs : List Int) (events : List (Option Int × Option Int)) :
    RespState :=
  events.foldl (fun st e => respStep st e.1 e.2) ⟨rs, [], [], []⟩

/-- All verdict txnrs delivered over a run, in arrival order. -/
def verdictList : List (Option Int × Option Int) → List Int
  | [] => []
  | (s, f) :: rest => s.toList ++ f.toList ++ verdictList rest

/-- Invariant of the response-writer loop: the wire output followed by the
pending received queue is exactly the registration order, every verdict
processed so far is either emitted or still buffered, and the head of the
received queue has no buffered verdict (Cooking ran to a fixpoint). -/
def RespInv (rs : List Int) (st : RespState) (processed : List Int) : Prop :=
  st.out.map Prod.fst ++ st.comm = rs ∧
  ((st.out.map Prod.fst : Multiset Int) + (st.successes : Multiset Int)
    + (st.failures : Multiset Int) = (processed : Multiset Int)) ∧
  (st.comm = [] ∨ ∃ t rest, st.comm = t :: rest ∧
    t ∉ st.successes ∧ t ∉ st.failures)

/-! ### Parser worker (relp.go, RelpServiceImpl.Parse)

One loop iteration on a dequeued raw message, with the collaborators
(parsers environment, Stasher) abstracted as oracles for their observable
outcomes.  The trace records forwarder verdicts, `Pool.Put(raw)` buffer
releases, the `Stash` call and `StopAndWait`; the Bool says whether the
worker keeps looping. -/

inductive ParseOutcome where
  | noParser
  | parseError
  | emptyMessage
  | parsed
deriving DecidableEq, Repr

inductive StashResult where
  | ok
  | fatal
  | nonfatal
deriving DecidableEq, Repr

inductive WorkerEvent where
  | forwardSucc (connID : Nat) (txnr : Int)
  | forwardFail (connID : Nat) (txnr : Int)
  | releaseBuffer
  | stashCall (connID : Nat) (txnr : Int)
  | stopAndWait
deriving DecidableEq, Repr

structure RawTcpMessage where
  connID : Nat
  txnr : Int
  message : List Nat
deriving DecidableEq, Repr

/-- One iteration of RelpServiceImpl.Parse on one raw message.  Path order
follows the source: unknown parser → fail, release, worker exits; parse
error → fail, release, continue; nil message → succ, release, continue;
otherwise the buffer is released, then Stash is called, then the verdict
follows the (fatal, nonfatal) pair. -/
def Parse (raw : RawTcpMessage) (po : ParseOutcome) (sr : StashResult) :
    List WorkerEvent × Bool :=
  match po with
  | .noParser => ([.forwardFail raw.connID raw.txnr, .releaseBuffer], false)
  | .parseError => ([.forwardFail raw.connID raw.txnr, .releaseBuffer], true)
  | .emptyMessage => ([.forwardSucc raw.connID raw.txnr, .releaseBuffer], true)
  | .parsed =>
    match sr with
    | .ok => ([.releaseBuffer, .stashCall raw.connID raw.txnr,
               .forwardSucc raw.connID raw.txnr], true)
    | .fatal => ([.releaseBuffer, .stashCall raw.connID raw.txnr,
                  .forwardFail raw.connID raw.txnr, .stopAndWait], false)
    | .nonfatal => ([.releaseBuffer, .stashCall raw.connID raw.txnr,
                     .forwardFail raw.connID raw.txnr], true)

def isVerdict : WorkerEvent → Bool
  | .forwardSucc _ _ => true
  | .forwardFail _ _ => true
  | _ => false

def isSuccVerdict : WorkerEvent → Bool
  | .forwardSucc _ _ => true
  | _ => false

def isRelease : WorkerEvent → Bool
  | .releaseBuffer => true
  | _ => false

/-- Some verdict is emitted strictly before the first buffer release. -/
def verdictBeforeRelease (evs : List WorkerEvent) : Bool :=
  (evs.takeWhile (fun e => !isRelease e)).any isVerdict

/-! ### Supervisor state machine (relp.go, RelpServiceImpl lifecycle)

Status, the multiset of statuses sent on StatusChan, and the number of
`close(StatusChan)` calls; the draining side effects of doStop are not
observable here.  `Start` takes the number of bound listeners as an
oracle (with zero listeners the source returns early, still Stopped). -/

inductive SrvStatus where
  | stopped
  | started
  | finalStopped
  | waiting
deriving DecidableEq, Repr

inductive SrvError where
  | definitelyStopped
  | notStopped
deriving DecidableEq, Repr

structure SupState where
  status : SrvStatus
  sent : List SrvStatus
  closeCount : Nat
deriving DecidableEq, Repr

def initSupState : SupState := ⟨.stopped, [], 0⟩

namespace SupState

/-- relp.go `RelpServiceImpl.doStop(final, wait)`. -/
def doStop (st : SupState) (final wait : Bool) : SupState :=
  if final ∧ (st.status = .waiting ∨ st.status = .stopped ∨ st.status = .finalStopped) then
    if st.status ≠ .finalStopped then
      { st with status := .finalStopped, sent := st.sent ++ [.finalStopped],
                closeCount := st.closeCount + 1 }
    else st
  else if st.status = .stopped ∨ st.status = .finalStopped ∨ st.status = .waiting then
    if st.status = .stopped ∧ wait then
      { st with status := .waiting, sent := st.sent ++ [.waiting] }
    else st
  else
    if final then
      { st with status := .finalStopped, sent := st.sent ++ [.finalStopped],
                closeCount := st.closeCount + 1 }
    else if wait then
      { st with status := .waiting, sent := st.sent ++ [.waiting] }
    else
      { st with status := .stopped, sent := st.sent ++ [.stopped] }

/-- relp.go `RelpServiceImpl.Start`, with the listener count as oracle. -/
def Start (st : SupState) (nListeners : Nat) : SupState × Option SrvError :=
  if st.status = .finalStopped then (st, some .definitelyStopped)
  else if st.status ≠ .stopped ∧ st.status ≠ .waiting then (st, some .notStopped)
  else if nListeners = 0 then (st, none)
  else ({ st with status := .started, sent := st.sent ++ [.started] }, none)

/-- relp.go `RelpServiceImpl.Stop`. -/
def Stop (st : SupState) : SupState := st.doStop false false

/-- relp.go `RelpServiceImpl.FinalStop`. -/
def FinalStop (st : SupState) : SupState := st.doStop true false

/-- relp.go `RelpServiceImpl.StopAndWait`. -/
def StopAndWait (st : SupState) : SupState := st.doStop false true

/-- relp.go `RelpServiceImpl.EndWait`. -/
def EndWait (st : SupState) : SupState :=
  if st.status ≠ .waiting then st
  else { st with status := .stopped, sent := st.sent ++ [.stopped] }

end SupState

inductive SupOp where
  | start (nListeners : Nat)
  | stop
  | finalStop
  | stopAndWait
  | endWait
deriving DecidableEq, Repr

def applySupOp (st : SupState) : SupOp → SupState
  | .start n => (st.Start n).1
  | .stop => st.Stop
  | .finalStop => st.FinalStop
  | .stopAndWait => st.StopAndWait
  | .endWait => st.EndWait

def runSup (st : SupState) (ops : List SupOp) : SupState :=
  ops.foldl applySupOp st

/-! ## Supporting lemmas -/

lemma getUint64LE_putUint64LE (ux : Nat) (h : ux < 2 ^ 64) :
    getUint64LE (putUint64LE ux) = ux := by
  simp only [putUint64LE, getUint64LE]
  omega

lemma txnr_roundtrip_aux (txnr : Int) (h1 : -(2 ^ 63) ≤ txnr) (h2 : txnr < 2 ^ 63) :
    bytes2txnr (txnr2bytes txnr) = txnr := by
  simp only [txnr2bytes, bytes2txnr]
  rw [getUint64LE_putUint64LE]
  · split
    · split <;> omega
    · split <;> omega
  · split <;> omega

lemma mapLoad_mapDelete (m : List (Nat × IntQueue)) (k : Nat) :
    mapLoad (mapDelete m k) k = none := by
  induction m with
  | nil => rfl
  | cons p rest ih =>
    obtain ⟨a, b⟩ := p
    by_cases h : a = k
    · simpa [mapDelete, h] using ih
    · have h2 : mapDelete ((a, b) :: rest) k = (a, b) :: mapDelete rest k := by
        simp [mapDelete, h]
      have h3 : (k == a) = false := by simp [Ne.symm h]
      rw [h2]
      show List.lookup k ((a, b) :: mapDelete rest k) = none
      rw [List.lookup, h3]
      exact ih

lemma cook_order (comm ss fs : List Int) (out : List (Int × Bool)) :
    (cook comm ss fs out).out.map Prod.fst ++ (cook comm ss fs out).comm
      = out.map Prod.fst ++ comm := by
  induction comm generalizing ss fs out with
  | nil => simp [cook]
  | cons t rest ih =>
    simp only [cook]
    by_cases h1 : t ∈ ss
    · rw [if_pos h1, ih]; simp
    · rw [if_neg h1]
      by_cases h2 : t ∈ fs
      · rw [if_pos h2, ih]; simp
      · rw [if_neg h2]

lemma cook_verdicts (comm ss fs : List Int) (out : List (Int × Bool)) :
    ((cook comm ss fs out).out.map Prod.fst : Multiset Int)
      + ((cook comm ss fs out).successes : Multiset Int)
      + ((cook comm ss fs out).failures : Multiset Int)
    = ((out.map Prod.fst : List Int) : Multiset Int)
      + (ss : Multiset Int) + (fs : Multiset Int) := by
  induction comm generalizing ss fs out with
  | nil => simp [cook]
  | cons t rest ih =>
    simp only [cook]
    by_cases h1 : t ∈ ss
    · rw [if_pos h1, ih]
      have hss : (ss : Multiset Int) = ((t :: ss.erase t : List Int) : Multiset Int) :=
        Multiset.coe_eq_coe.mpr (List.perm_cons_erase h1)
      rw [hss]
      simp only [List.map_append, List.map_cons, List.map_nil]
      rw [← Multiset.coe_add, ← Multiset.cons_coe]
      simp [← Multiset.cons_coe, ← Multiset.singleton_add, ← Multiset.coe_add]
      abel
    · rw [if_neg h1]
      by_cases h2 : t ∈ fs
      · rw [if_pos h2, ih]
        have hfs : (fs : Multiset Int) = ((t :: fs.erase t : List Int) : Multiset Int) :=
          Multiset.coe_eq_coe.mpr (List.perm_cons_erase h2)
        rw [hfs]
        simp only [List.map_append, List.map_cons, List.map_nil]
        rw [← Multiset.coe_add, ← Multiset.cons_coe]
        simp [← Multiset.cons_coe, ← Multiset.singleton_add, ← Multiset.coe_add]
        abel
      · rw [if_neg h2]

lemma cook_head (comm ss fs : List Int) (out : List (Int × Bool)) :
    (cook comm ss fs out).comm = [] ∨
    ∃ t rest, (cook comm ss fs out).comm = t :: rest ∧
      t ∉ (cook comm ss fs out).successes ∧ t ∉ (cook comm ss fs out).failures := by
  induction comm generalizing ss fs out with
  | nil => left; rfl
  | cons t rest ih =>
    simp only [cook]
    by_cases h1 : t ∈ ss
    · rw [if_pos h1]; exact ih _ _ _
    · rw [if_neg h1]
      by_cases h2 : t ∈ fs
      · rw [if_pos h2]; exact ih _ _ _
      · rw [if_neg h2]
        right
        exact ⟨t, rest, rfl, h1, h2⟩

lemma respStep_inv (rs : List Int) (st : RespState) (processed : List Int)
    (s f : Option Int) (h : RespInv rs st processed) :
    RespInv rs (respStep st s f) (processed ++ s.toList ++ f.toList) := by
  obtain ⟨h1, h2, h3⟩ := h
  refine ⟨?_, ?_, ?_⟩
  · rw [respStep, cook_order]
    exact h1
  · rw [respStep, cook_verdicts]
    simp only [← Multiset.coe_add]
    rw [← h2]
    abel
  · rw [respStep]
    exact cook_head _ _ _ _

lemma handleResponses_inv (rs : List Int) (events : List (Option Int × Option Int)) :
    RespInv rs (handleResponses rs events) (verdictList events) := by
  have hgen : ∀ (evs : List (Option Int × Option Int)) (st : RespState)
      (processed : List Int), RespInv rs st processed →
      RespInv rs (evs.foldl (fun st e => respStep st e.1 e.2) st)
        (processed ++ verdictList evs) := by
    intro evs
    induction evs with
    | nil => intro st processed h; simpa [verdictList] using h
    | cons e rest ih =>
      intro st processed h
      obtain ⟨s, f⟩ := e
      have hstep := respStep_inv rs st processed s f h
      have := ih (respStep st s f) (processed ++ s.toList ++ f.toList) hstep
      simpa [verdictList, List.append_assoc] using this
  have hinit : RespInv rs ⟨rs, [], [], []⟩ [] := by
    refine ⟨by simp, by simp, ?_⟩
    cases rs with
    | nil => left; rfl
    | cons t rest => right; exact ⟨t, rest, rfl, by simp, by simp⟩
  simpa [handleResponses] using hgen events ⟨rs, [], [], []⟩ [] hinit

lemma pf_nonmono (st : HState) (token : List Nat)
    (h : goAtoi ((splitN token 4).getD 0 []) ≤ st.previous) :
    processFrame st token = (st, [HEvent.protocolError], false) := by
  simp only [processFrame]
  rw [if_pos h]

lemma hc_nonmono (st : HState) (token : List Nat) (ts : List (List Nat))
    (h : goAtoi ((splitN token 4).getD 0 []) ≤ st.previous) :
    HandleConnection st (token :: ts) = (st, [HEvent.protocolError]) := by
  rw [HandleConnection, pf_nonmono st token h]

lemma pf_missing_data (st : HState) (token : List Nat)
    (htx : st.previous < goAtoi ((splitN token 4).getD 0 []))
    (hdl : goAtoi ((splitN token 4).getD 2 []) ≠ 0)
    (hlen : (splitN token 4).length ≠ 4) :
    processFrame st token
      = ({ st with previous := goAtoi ((splitN token 4).getD 0 []) },
         [HEvent.protocolError], false) := by
  simp only [processFrame]
  rw [if_neg (not_le.mpr htx), if_pos ⟨hdl, hlen⟩]

lemma pf_syslog (st : HState) (token : List Nat)
    (hopen : st.relpIsOpen = true)
    (htx : st.previous < goAtoi ((splitN token 4).getD 0 []))
    (hcmd : (splitN token 4).getD 1 [] = syslogBytes)
    (hlen : (splitN token 4).length = 4)
    (hdl : goAtoi ((splitN token 4).getD 2 []) ≠ 0)
    (hne : trimBytes ((splitN token 4).getD 3 []) ≠ []) :
    processFrame st token
      = ({ st with previous := goAtoi ((splitN token 4).getD 0 []) },
         [HEvent.received (goAtoi ((splitN token 4).getD 0 [])),
          HEvent.enqueueRaw (goAtoi ((splitN token 4).getD 0 []))
            (trimBytes ((splitN token 4).getD 3 []))], true) := by
  simp only [processFrame]
  rw [if_neg (not_le.mpr htx)]
  rw [if_neg (by simp [hlen])]
  rw [if_pos hdl, hcmd]
  rw [if_neg (by decide), if_neg (by decide)]
  rw [if_pos rfl]
  simp only [hopen, if_true]
  rw [if_neg (by simpa using hne)]

lemma pf_open (st : HState) (token : List Nat)
    (hopen : st.relpIsOpen = false)
    (htx : st.previous < goAtoi ((splitN token 4).getD 0 []))
    (hcmd : (splitN token 4).getD 1 [] = openBytes)
    (hok : ¬(goAtoi ((splitN token 4).getD 2 []) ≠ 0 ∧ (splitN token 4).length ≠ 4)) :
    processFrame st token
      = ({ st with previous := goAtoi ((splitN token 4).getD 0 []), relpIsOpen := true },
         [HEvent.openReply (goAtoi ((splitN token 4).getD 0 []))
           ((if goAtoi ((splitN token 4).getD 2 []) ≠ 0
             then trimBytes ((splitN token 4).getD 3 []) else []).length + 7)
           (if goAtoi ((splitN token 4).getD 2 []) ≠ 0
            then trimBytes ((splitN token 4).getD 3 []) else [])], true) := by
  simp only [processFrame]
  rw [if_neg (not_le.mpr htx), if_neg hok, hcmd, if_pos rfl]
  simp [hopen]

lemma supStep_closeCount (st : SupState) (op : SupOp)
    (h : st.closeCount = if st.status = SrvStatus.finalStopped then 1 else 0) :
    (applySupOp st op).closeCount
      = if (applySupOp st op).status = SrvStatus.finalStopped then 1 else 0 := by
  cases op <;> cases hst : st.status <;>
    simp_all [applySupOp, SupState.Start, SupState.Stop, SupState.FinalStop,
      SupState.StopAndWait, SupState.EndWait, SupState.doStop] <;>
    split_ifs <;> simp_all

lemma runSup_closeCount (ops : List SupOp) :
    ∀ st : SupState, st.closeCount = (if st.status = SrvStatus.finalStopped then 1 else 0) →
      (runSup st ops).closeCount
        = if (runSup st ops).status = SrvStatus.finalStopped then 1 else 0 := by
  induction ops with
  | nil => intro st h; simpa [runSup] using h
  | cons op rest ih =>
    intro st h
    have hstep := supStep_closeCount st op h
    simpa [runSup] using ih (applySupOp st op) (by simpa [runSup] using hstep)

lemma finalStopped_absorbing (st : SupState) (op : SupOp)
    (h : st.status = SrvStatus.finalStopped) : applySupOp st op = st := by
  cases op <;>
    simp [applySupOp, SupState.Start, SupState.Stop, SupState.FinalStop,
      SupState.StopAndWait, SupState.EndWait, SupState.doStop, h]

/-! ## Claim theorems -/

/-- C1: the response writer emits `rsp` frames in exactly the order the
TXNRs were registered in the received queue, regardless of the order the
verdicts arrive: when the delivered verdicts cover the registered TXNRs
(each exactly once, in any arrival order), the wire output is exactly the
registration sequence — one `rsp` per accepted TXNR, strictly increasing
because the registered TXNRs are. -/
theorem relp_C1_rsp_in_received_order (rs : List Int)
    (events : List (Option Int × Option Int))
    (hinc : rs.Chain' (· < ·))
    (hperm : (verdictList events).Perm rs) :
    (handleResponses rs events).out.map Prod.fst = rs := by
  have hnd : rs.Nodup :=
    List.Pairwise.imp ne_of_lt (List.chain'_iff_pairwise.mp hinc)
  obtain ⟨h1, h2, h3⟩ := handleResponses_inv rs events
  rcases h3 with hc | ⟨t, rest, hc, hts, htf⟩
  · rw [hc, List.append_nil] at h1
    exact h1
  · exfalso
    have htrs : t ∈ rs := by
      rw [← h1, hc]
      exact List.mem_append_right _ (List.mem_cons_self t rest)
    have hnd2 : ((handleResponses rs events).out.map Prod.fst
        ++ (handleResponses rs events).comm).Nodup := by rw [h1]; exact hnd
    have hdis := (List.nodup_append.mp hnd2).2.2
    have htout : t ∉ (handleResponses rs events).out.map Prod.fst := by
      intro hx
      exact hdis hx (hc ▸ List.mem_cons_self t rest)
    have hm : t ∈ ((verdictList events : List Int) : Multiset Int) := by
      rw [Multiset.coe_eq_coe.mpr hperm]
      exact htrs
    rw [← h2] at hm
    rcases Multiset.mem_add.mp hm with hm1 | hmf
    · rcases Multiset.mem_add.mp hm1 with hmo | hms
      · exact htout hmo
      · exact hts hms
    · exact htf hmf

/-- Witness for C1: three registered TXNRs, verdicts arriving out of
order, ACKed on the wire in registration order. -/
theorem relp_C1_witness :
    (handleResponses [0, 2, 5]
      [(none, some 2), (some 0, none), (some 5, none)]).out.map Prod.fst
      = [0, 2, 5] :=
  relp_C1_rsp_in_received_order [0, 2, 5]
    [(none, some 2), (some 0, none), (some 5, none)]
    (by norm_num [List.chain'_cons]) (by decide)

/-- C2 counterexample: on a successfully parsed and stashed message the
worker calls `Pool.Put(raw)` (releasing the buffer) before `Stash` and
before the verdict, so the verdict is not emitted before the release. -/
theorem relp_C2_counterexample :
    (Parse ⟨1, 5, [104]⟩ .parsed .ok).1
      = [.releaseBuffer, .stashCall 1 5, .forwardSucc 1 5] ∧
    verdictBeforeRelease (Parse ⟨1, 5, [104]⟩ .parsed .ok).1 = false := by
  decide

/-- C2 (amended): each dequeued raw message yields exactly one verdict and
exactly one buffer release; the verdict is ForwardSucc exactly when the
parser returns no message or Stash returns (nil, nil); the verdict
precedes the release exactly on the paths that do not reach Stash (on the
Stash path the buffer is released first). -/
theorem relp_C2_one_verdict_per_message (raw : RawTcpMessage)
    (po : ParseOutcome) (sr : StashResult) :
    (Parse raw po sr).1.countP isVerdict = 1 ∧
    (Parse raw po sr).1.countP isRelease = 1 ∧
    (Parse raw po sr).1.countP isSuccVerdict
      = (if po = .emptyMessage ∨ (po = .parsed ∧ sr = .ok) then 1 else 0) ∧
    verdictBeforeRelease (Parse raw po sr).1 = !(po == .parsed) := by
  cases po <;> cases sr <;>
    simp [Parse, isVerdict, isRelease, isSuccVerdict, verdictBeforeRelease]

/-- C3: a frame whose TXNR does not exceed the previous one makes the
handler increment the protocol-error counter exactly once, terminate the
connection at once, and emit no reply or forwarder action for the
offending frame nor for any later frame. -/
theorem relp_C3_nonmonotonic_terminates (st : HState) (token : List Nat)
    (ts : List (List Nat))
    (h : goAtoi ((splitN token 4).getD 0 []) ≤ st.previous) :
    HandleConnection st (token :: ts) = (st, [HEvent.protocolError]) :=
  hc_nonmono st token ts h

/-- Witness for C3: TXNR 3 after TXNR 5 kills the connection; the
following frame is never processed. -/
theorem relp_C3_witness :
    HandleConnection ⟨5, true⟩
      [[51, 32, 115, 121, 115, 108, 111, 103, 32, 48],
       [57, 32, 115, 121, 115, 108, 111, 103, 32, 48]]
      = (⟨5, true⟩, [HEvent.protocolError]) :=
  relp_C3_nonmonotonic_terminates ⟨5, true⟩
    [51, 32, 115, 121, 115, 108, 111, 103, 32, 48]
    [[57, 32, 115, 121, 115, 108, 111, 103, 32, 48]] (by decide)

/-- C4 counterexample: frame `2 syslog 2 a ` (DATA region `a` + space) is
accepted, but the payload enqueued for the parser is the trimmed `[97]`,
not the wire DATA region `[97, 32]`. -/
theorem relp_C4_counterexample :
    HandleConnection initHState
      [[49, 32, 111, 112, 101, 110, 32, 48],
       [50, 32, 115, 121, 115, 108, 111, 103, 32, 50, 32, 97, 32]]
      = (⟨2, true⟩, [HEvent.openReply 1 7 [], HEvent.received 2,
                     HEvent.enqueueRaw 2 [97]]) ∧
    (splitN [50, 32, 115, 121, 115, 108, 111, 103, 32, 50, 32, 97, 32] 4).getD 3 []
      = [97, 32] ∧
    ([97] : List Nat) ≠ [97, 32] := by
  decide

/-- C4 (amended): the payload placed in the raw message for an accepted
`syslog` frame is the frame's DATA region with leading and trailing
spaces, CRs and LFs trimmed (`bytes.Trim(data, " \x5Cr\x5Cn")`); it is
byte-for-byte equal to the DATA region exactly when that region neither
starts nor ends with such a byte. -/
theorem relp_C4_payload_is_trimmed_data (st : HState) (token : List Nat)
    (hopen : st.relpIsOpen = true)
    (htx : st.previous < goAtoi ((splitN token 4).getD 0 []))
    (hcmd : (splitN token 4).getD 1 [] = syslogBytes)
    (hlen : (splitN token 4).length = 4)
    (hdl : goAtoi ((splitN token 4).getD 2 []) ≠ 0)
    (hne : trimBytes ((splitN token 4).getD 3 []) ≠ []) :
    processFrame st token
      = ({ st with previous := goAtoi ((splitN token 4).getD 0 []) },
         [HEvent.received (goAtoi ((splitN token 4).getD 0 [])),
          HEvent.enqueueRaw (goAtoi ((splitN token 4).getD 0 []))
            (trimBytes ((splitN token 4).getD 3 []))], true) :=
  pf_syslog st token hopen htx hcmd hlen hdl hne

/-- Witness for C4: `2 syslog 5 hello` enqueues exactly the DATA bytes
(`hello` needs no trimming). -/
theorem relp_C4_witness :
    processFrame ⟨1, true⟩
      [50, 32, 115, 121, 115, 108, 111, 103, 32, 53, 32, 104, 101, 108, 108, 111]
      = (⟨2, true⟩, [HEvent.received 2,
                     HEvent.enqueueRaw 2 [104, 101, 108, 108, 111]], true) := by
  rw [relp_C4_payload_is_trimmed_data ⟨1, true⟩
    [50, 32, 115, 121, 115, 108, 111, 103, 32, 53, 32, 104, 101, 108, 108, 111]
    rfl (by decide) (by decide) (by decide) (by decide) (by decide)]
  decide

/-- C5 counterexample: frame `2 syslog 5 hi` declares DATALEN 5 but
carries a 2-byte DATA region; the handler accepts it and forwards it,
with no protocol error and no termination. -/
theorem relp_C5_counterexample :
    HandleConnection initHState
      [[49, 32, 111, 112, 101, 110, 32, 48],
       [50, 32, 115, 121, 115, 108, 111, 103, 32, 53, 32, 104, 105]]
      = (⟨2, true⟩, [HEvent.openReply 1 7 [], HEvent.received 2,
                     HEvent.enqueueRaw 2 [104, 105]]) ∧
    goAtoi ((splitN [50, 32, 115, 121, 115, 108, 111, 103, 32, 53, 32, 104, 105] 4).getD 2 [])
      = 5 ∧
    ((splitN [50, 32, 115, 121, 115, 108, 111, 103, 32, 53, 32, 104, 105] 4).getD 3 []).length
      = 2 ∧
    HEvent.protocolError ∉
      (HandleConnection initHState
        [[49, 32, 111, 112, 101, 110, 32, 48],
         [50, 32, 115, 121, 115, 108, 111, 103, 32, 53, 32, 104, 105]]).2 := by
  decide

/-- C5 (amended): the only DATALEN/DATA inconsistency the handler treats
as a protocol error (counter increment, immediate termination, no reply)
is a non-zero DATALEN with no DATA field at all (fewer than four
space-separated fields); a DATALEN that merely differs from the DATA
length is not checked. -/
theorem relp_C5_missing_data_is_protocol_error (st : HState) (token : List Nat)
    (htx : st.previous < goAtoi ((splitN token 4).getD 0 []))
    (hdl : goAtoi ((splitN token 4).getD 2 []) ≠ 0)
    (hlen : (splitN token 4).length ≠ 4) :
    processFrame st token
      = ({ st with previous := goAtoi ((splitN token 4).getD 0 []) },
         [HEvent.protocolError], false) :=
  pf_missing_data st token htx hdl hlen

/-- Witness for C5 (amended): `2 syslog 5` (DATALEN 5, no DATA field)
is a protocol error that terminates the connection. -/
theorem relp_C5_witness :
    processFrame ⟨1, true⟩ [50, 32, 115, 121, 115, 108, 111, 103, 32, 53]
      = (⟨2, true⟩, [HEvent.protocolError], false) := by
  rw [relp_C5_missing_data_is_protocol_error ⟨1, true⟩
    [50, 32, 115, 121, 115, 108, 111, 103, 32, 53]
    (by decide) (by decide) (by decide)]
  decide

/-- C6 counterexample: after AddConn, RemoveConn disposes the success and
failure queues but performs no Dispose on the received (comm) queue — it
only deletes its map entry. -/
theorem relp_C6_counterexample :
    (AckForwarder.RemoveConn (emptyForwarder.AddConn).2
        (emptyForwarder.AddConn).1).disposedSucc = true ∧
    (AckForwarder.RemoveConn (emptyForwarder.AddConn).2
        (emptyForwarder.AddConn).1).disposedFail = true ∧
    (AckForwarder.RemoveConn (emptyForwarder.AddConn).2
        (emptyForwarder.AddConn).1).disposedComm = false := by
  decide

/-- C6 (amended): for a connection present in the coordinator, RemoveConn
disposes the success and failure queues and deletes all three map entries;
the received (comm) queue entry is deleted without a Dispose call. -/
theorem relp_C6_removeConn (f : AckForwarder) (connID : Nat)
    (hs : (mapLoad f.succ connID).isSome = true)
    (hf : (mapLoad f.fail connID).isSome = true) :
    (f.RemoveConn connID).disposedSucc = true ∧
    (f.RemoveConn connID).disposedFail = true ∧
    (f.RemoveConn connID).disposedComm = false ∧
    mapLoad (f.RemoveConn connID).fwd.succ connID = none ∧
    mapLoad (f.RemoveConn connID).fwd.fail connID = none ∧
    mapLoad (f.RemoveConn connID).fwd.comm connID = none := by
  obtain ⟨qs, hqs⟩ := Option.isSome_iff_exists.mp hs
  obtain ⟨qf, hqf⟩ := Option.isSome_iff_exists.mp hf
  simp [AckForwarder.RemoveConn, hqs, hqf, mapLoad_mapDelete]

/-- Witness for C6 (amended), at the forwarder produced by one AddConn. -/
theorem relp_C6_witness :
    (AckForwarder.RemoveConn (emptyForwarder.AddConn).2 1).disposedSucc = true ∧
    (AckForwarder.RemoveConn (emptyForwarder.AddConn).2 1).disposedFail = true ∧
    (AckForwarder.RemoveConn (emptyForwarder.AddConn).2 1).disposedComm = false ∧
    mapLoad (AckForwarder.RemoveConn (emptyForwarder.AddConn).2 1).fwd.succ 1 = none ∧
    mapLoad (AckForwarder.RemoveConn (emptyForwarder.AddConn).2 1).fwd.fail 1 = none ∧
    mapLoad (AckForwarder.RemoveConn (emptyForwarder.AddConn).2 1).fwd.comm 1 = none :=
  relp_C6_removeConn (emptyForwarder.AddConn).2 1 (by decide) (by decide)

/-- C7 counterexample: an `open` frame whose 2-byte payload is `a` + LF
gets reply fields LEN 8 and echoed data `[97]` — the trailing LF of the
payload is trimmed, so the echo is not the payload and LEN is not
`len(payload) + 7 = 9`. -/
theorem relp_C7_counterexample :
    HandleConnection initHState [[49, 32, 111, 112, 101, 110, 32, 50, 32, 97, 10]]
      = (⟨1, true⟩, [HEvent.openReply 1 8 [97]]) ∧
    (splitN [49, 32, 111, 112, 101, 110, 32, 50, 32, 97, 10] 4).getD 3 [] = [97, 10] ∧
    ([97] : List Nat) ≠ [97, 10] ∧ (8 : Nat) ≠ [97, 10].length + 7 := by
  decide

/-- C7 (amended): a valid first `open` frame is answered with
`TXNR rsp LEN 200 OK` + LF + echoed data + LF, where the echoed data is
the frame's payload trimmed of leading/trailing spaces, CRs and LFs, and
LEN = len(trimmed payload) + 7. -/
theorem relp_C7_open_reply (st : HState) (token : List Nat)
    (hopen : st.relpIsOpen = false)
    (htx : st.previous < goAtoi ((splitN token 4).getD 0 []))
    (hcmd : (splitN token 4).getD 1 [] = openBytes)
    (hok : ¬(goAtoi ((splitN token 4).getD 2 []) ≠ 0 ∧ (splitN token 4).length ≠ 4)) :
    processFrame st token
      = ({ st with previous := goAtoi ((splitN token 4).getD 0 []), relpIsOpen := true },
         [HEvent.openReply (goAtoi ((splitN token 4).getD 0 []))
           ((if goAtoi ((splitN token 4).getD 2 []) ≠ 0
             then trimBytes ((splitN token 4).getD 3 []) else []).length + 7)
           (if goAtoi ((splitN token 4).getD 2 []) ≠ 0
            then trimBytes ((splitN token 4).getD 3 []) else [])], true) :=
  pf_open st token hopen htx hcmd hok

/-- Witness for C7 (amended): `1 open 2 ab` replies with LEN 9 and echo
`ab`. -/
theorem relp_C7_witness :
    processFrame initHState [49, 32, 111, 112, 101, 110, 32, 50, 32, 97, 98]
      = (⟨1, true⟩, [HEvent.openReply 1 9 [97, 98]], true) := by
  rw [relp_C7_open_reply initHState [49, 32, 111, 112, 101, 110, 32, 50, 32, 97, 98]
    rfl (by decide) (by decide) (by decide)]
  decide

/-- C8: FinalStopped is terminal and absorbing — every lifecycle operation
leaves a FinalStopped supervisor unchanged, Start then returns the
definitely-stopped error, and over any operation sequence from the initial
state the status channel is closed exactly once iff FinalStopped was
reached (so never more than once). -/
theorem relp_C8_finalStopped_terminal :
    (∀ (st : SupState) (op : SupOp),
      st.status = SrvStatus.finalStopped → applySupOp st op = st) ∧
    (∀ (st : SupState) (n : Nat), st.status = SrvStatus.finalStopped →
      st.Start n = (st, some SrvError.definitelyStopped)) ∧
    (∀ ops : List SupOp, (runSup initSupState ops).closeCount
      = if (runSup initSupState ops).status = SrvStatus.finalStopped then 1 else 0) := by
  refine ⟨finalStopped_absorbing, ?_, ?_⟩
  · intro st n h
    simp [SupState.Start, h]
  · intro ops
    exact runSup_closeCount ops initSupState (by decide)

/-- Witness for C8: a concrete FinalStopped state absorbs Stop and rejects
Start; a run that reaches FinalStopped closed the channel exactly once. -/
theorem relp_C8_witness :
    applySupOp ⟨SrvStatus.finalStopped, [], 1⟩ SupOp.stop
      = ⟨SrvStatus.finalStopped, [], 1⟩ ∧
    SupState.Start ⟨SrvStatus.finalStopped, [], 1⟩ 3
      = (⟨SrvStatus.finalStopped, [], 1⟩, some SrvError.definitelyStopped) ∧
    (runSup initSupState [SupOp.start 1, SupOp.finalStop]).closeCount
      = if (runSup initSupState [SupOp.start 1, SupOp.finalStop]).status
          = SrvStatus.finalStopped then 1 else 0 :=
  ⟨relp_C8_finalStopped_terminal.1 ⟨SrvStatus.finalStopped, [], 1⟩ SupOp.stop rfl,
   relp_C8_finalStopped_terminal.2.1 ⟨SrvStatus.finalStopped, [], 1⟩ 3 rfl,
   relp_C8_finalStopped_terminal.2.2 [SupOp.start 1, SupOp.finalStop]⟩

/-- C9: the transaction-number codec round-trips every 64-bit machine
integer, negatives included: bytes2txnr (txnr2bytes txnr) = txnr. -/
theorem relp_C9_txnr_roundtrip (txnr : Int)
    (h1 : -(2 ^ 63) ≤ txnr) (h2 : txnr < 2 ^ 63) :
    bytes2txnr (txnr2bytes txnr) = txnr :=
  txnr_roundtrip_aux txnr h1 h2

/-- Witness for C9 at a negative and a positive txnr. -/
theorem relp_C9_witness :
    bytes2txnr (txnr2bytes (-5)) = -5 ∧ bytes2txnr (txnr2bytes 12345) = 12345 :=
  ⟨relp_C9_txnr_roundtrip (-5) (by decide) (by decide),
   relp_C9_txnr_roundtrip 12345 (by decide) (by decide)⟩

/-- C10: every ack-forwarder operation is total on unknown connection ids:
the mutators are no-ops, the getters return -1 without touching state, and
Wait returns false. -/
theorem relp_C10_unknown_conn_noop (f : AckForwarder) (connID : Nat) (txnr : Int)
    (hs : mapLoad f.succ connID = none)
    (hf : mapLoad f.fail connID = none)
    (hc : mapLoad f.comm connID = none) :
    f.Received connID txnr = f ∧
    f.Commit connID = f ∧
    f.ForwardSucc connID txnr = f ∧
    f.ForwardFail connID txnr = f ∧
    f.NextToCommit connID = -1 ∧
    f.GetSucc connID = (-1, f) ∧
    f.GetFail connID = (-1, f) ∧
    f.Wait connID = false := by
  simp [AckForwarder.Received, AckForwarder.Commit, AckForwarder.ForwardSucc,
    AckForwarder.ForwardFail, AckForwarder.NextToCommit, AckForwarder.GetSucc,
    AckForwarder.GetFail, AckForwarder.Wait, hs, hf, hc]

/-- Witness for C10 at the empty forwarder and connection id 7. -/
theorem relp_C10_witness :
    emptyForwarder.Received 7 3 = emptyForwarder ∧
    emptyForwarder.Commit 7 = emptyForwarder ∧
    emptyForwarder.ForwardSucc 7 3 = emptyForwarder ∧
    emptyForwarder.ForwardFail 7 3 = emptyForwarder ∧
    emptyForwarder.NextToCommit 7 = -1 ∧
    emptyForwarder.GetSucc 7 = (-1, emptyForwarder) ∧
    emptyForwarder.GetFail 7 = (-1, emptyForwarder) ∧
    emptyForwarder.Wait 7 = false :=
  relp_C10_unknown_conn_noop emptyForwarder 7 3 rfl rfl rfl

end Relp
